import Mathlib

/-!
Verification development for the gridbeat device-acquisition runtime.

This file gives a shallow embedding, in Lean 4, of the parts of the source
relevant to the frozen claims:

* the device-type catalogue importer
  (`internal/models/importer.go`: `ValidateSpec`, `ImportDeviceType`,
  `normalizeRW`, `defaultU16`, `defaultF64`, with the row types of
  `internal/models/device.go`),
* the embedded Modbus simulator slave handlers
  (`core/plugin/cmbus`: `HandleCoils`, `HandleDiscreteInputs`,
  `HandleHoldingRegisters`, `HandleInputRegisters`),
* the Modbus worker instance lifecycle
  (`mbus.ModbusInstance`: `Init`, `Close`, `UpdateConfig`, `runPoller`),
* the instance manager (`core.InstanceManager`: `CreateWithContext`,
  `Destroy`, `Get`).

Go machine integers are modelled as `Nat` with explicit `% 2 ^ w` where
overflow matters; Go `float64` fields that are only stored and compared with
zero (scale, offset) are modelled as `Rat`; fallible Go functions return a
result paired with an `Option String` error, mirroring Go's `(T, error)`.
-/

namespace Importer

/-- Models Go's `strings.TrimSpace(s) == ""`: the string is empty or all
whitespace. Implemented over the character list so that the kernel can
evaluate it. -/
def isBlank (s : String) : Bool :=
  s.data.all (fun c => c.isWhitespace)

/-- Models `strings.TrimSpace` (leading and trailing whitespace removed). -/
def trimSpace (s : String) : String :=
  String.mk (((s.data.dropWhile Char.isWhitespace).reverse.dropWhile
    Char.isWhitespace).reverse)

/-- Models `strings.ToUpper` for the ASCII strings the importer feeds it. -/
def asciiUpper (s : String) : String :=
  String.mk (s.data.map Char.toUpper)

/-- Models the `I18nMap` lookup `m["en"]`: a Go map read returning the zero
value (empty string) for a missing key. The map is embedded as an association
list. -/
def lookupI18n (m : List (String × String)) (k : String) : String :=
  match m.find? (fun kv => kv.1 == k) with
  | some kv => kv.2
  | none => ""

/-- Models `models.ModbusSpec`. `EnumMap any` is embedded as the
already-canonically-marshalled JSON text (`enumMap = none` models a nil map,
which the importer stores as the literal text null). -/
structure ModbusSpec where
  fc : Nat
  address : Nat
  quantity : Nat
  dataType : String
  bitIndex : Option Nat
  byteOrder : String
  scale : Rat
  offset : Rat
  precision : Int
  enumMap : Option String
  deriving DecidableEq, Repr

/-- Models `models.PointSpec`. `kind` stays a string, as in the Go source
(`RegType string`), so that validation of the kind is a real check. -/
structure PointSpec where
  code : String
  kind : String
  rw : String
  unit : String
  nameI18n : List (String × String)
  modbus : ModbusSpec
  deriving DecidableEq, Repr

/-- Models `models.TypeSpec`. -/
structure TypeSpec where
  typeKey : String
  nameEn : String
  vendor : String
  model : String
  version : String
  points : List PointSpec
  deriving DecidableEq, Repr

/-- The four legal register kinds (`RegHolding`, `RegInput`, `RegCoil`,
`RegDiscrete` in `internal/models/device.go`). -/
def kindOk (k : String) : Bool :=
  k == "holding" || k == "input" || k == "coil" || k == "discrete"

/-- Models the per-point loop of `ValidateSpec`: `seen` accumulates the point
codes already visited, `i` is the running index used in error messages. The
Go loop's final `p.Modbus.Quantity = 1` writes to a range-loop copy and has
no effect, so it is not modelled. -/
def validatePoints : List String → Nat → List PointSpec → Option String
  | _, _, [] => none
  | seen, i, p :: rest =>
    if isBlank p.code then some ("points[" ++ toString i ++ "].code is required")
    else if seen.contains p.code then some ("duplicate point code: " ++ p.code)
    else if !kindOk p.kind then some ("points[" ++ toString i ++ "].kind must be YC/YX/YK/YT")
    else if isBlank (lookupI18n p.nameI18n "en") then
      some ("points[" ++ toString i ++ "].name_i18n.en is required")
    else if p.modbus.fc == 0 then some ("points[" ++ toString i ++ "].modbus.fc is required")
    else if isBlank p.modbus.dataType then
      some ("points[" ++ toString i ++ "].modbus.data_type is required")
    else validatePoints (p.code :: seen) (i + 1) rest

/-- Models `ValidateSpec`. Returns `none` on success, `some msg` on the first
validation error, as the Go function returns `error`. -/
def validateSpec (spec : TypeSpec) : Option String :=
  if isBlank spec.typeKey then some "type_key is required"
  else if isBlank spec.nameEn then some "name_en is required"
  else if spec.points.isEmpty then some "points is required"
  else validatePoints [] 0 spec.points

/-- Models `normalizeRW`. -/
def normalizeRW (v : String) : String :=
  let s := asciiUpper (trimSpace v)
  if s == "R" || s == "W" || s == "RW" then s else "R"

/-- Models `defaultU16`. -/
def defaultU16 (v d : Nat) : Nat :=
  if v == 0 then d else v

/-- Models `defaultF64`. -/
def defaultF64 (v d : Rat) : Rat :=
  if v == 0 then d else v

/-- Models the `device_types` row (`models.DeviceType`). Timestamps are
`Nat`; gorm soft deletion (`deleted_at`) is an `Option Nat`. -/
structure DeviceTypeRow where
  id : String
  typeKey : String
  nameEn : String
  vendor : String
  model : String
  version : String
  checksum : String
  createdAt : Nat
  updatedAt : Nat
  deletedAt : Option Nat
  deriving DecidableEq, Repr

/-- Models the `device_type_points` row (`models.DeviceTypePoint`). -/
structure PointRow where
  id : String
  typeKey : String
  pointCode : String
  pointKind : String
  vendor : String
  model : String
  nameI18n : List (String × String)
  unit : String
  rw : String
  enabled : Bool
  fc : Nat
  address : Nat
  quantity : Nat
  dataType : String
  bitIndex : Option Nat
  byteOrder : String
  scale : Rat
  offset : Rat
  precision : Int
  enumMapJson : String
  createdAt : Nat
  updatedAt : Nat
  deletedAt : Option Nat
  deriving DecidableEq, Repr

/-- The persisted catalogue state: the `device_types` and
`device_type_points` tables, as row lists. -/
structure Storage where
  types : List DeviceTypeRow
  points : List PointRow
  deriving DecidableEq, Repr

/-- Models `ImportOptions`. -/
structure ImportOptions where
  softDeleteMissing : Bool
  deriving DecidableEq, Repr

/-- Canonical serialisation of a modbus mapping, a fragment of the canonical
serialisation of the whole spec (models the corresponding fragment of
`json.Marshal(spec)`, which is deterministic because Go's encoder sorts map
keys). Braces are avoided; fields are joined with field separators, which
keeps the encoding injective on the embedded record. -/
def natSer (n : Nat) : String :=
  toString n

/-- Serialisation of an integer field of the spec. -/
def intSer (i : Int) : String :=
  if i < 0 then "-" ++ natSer i.natAbs else natSer i.natAbs

/-- Serialisation of a rational (modelling a float64 field) as
numerator/denominator, injective on `Rat`. -/
def ratSer (q : Rat) : String :=
  intSer q.num ++ "/" ++ natSer q.den

def serializeModbus (m : ModbusSpec) : String :=
  "fc=" ++ natSer m.fc ++ ";addr=" ++ natSer m.address ++ ";qty=" ++ natSer m.quantity
    ++ ";dt=" ++ m.dataType ++ ";bit=" ++ (match m.bitIndex with | some b => natSer b | none => "null")
    ++ ";bo=" ++ m.byteOrder ++ ";scale=" ++ ratSer m.scale ++ ";off=" ++ ratSer m.offset
    ++ ";prec=" ++ intSer m.precision
    ++ ";enum=" ++ (match m.enumMap with | some e => e | none => "null")

/-- Canonical serialisation of one point spec. -/
def serializePoint (p : PointSpec) : String :=
  "code=" ++ p.code ++ ";kind=" ++ p.kind ++ ";rw=" ++ p.rw ++ ";unit=" ++ p.unit
    ++ ";names=" ++ String.intercalate "," (p.nameI18n.map (fun kv => kv.1 ++ ":" ++ kv.2))
    ++ ";" ++ serializeModbus p.modbus

/-- Canonical serialisation of the whole spec (models `json.Marshal(spec)`). -/
def canonicalSerialize (spec : TypeSpec) : String :=
  "type_key=" ++ spec.typeKey ++ ";name_en=" ++ spec.nameEn ++ ";vendor=" ++ spec.vendor
    ++ ";model=" ++ spec.model ++ ";version=" ++ spec.version
    ++ ";points=" ++ String.intercalate "|" (spec.points.map serializePoint)

/-- A deterministic 64-bit string digest (a polynomial rolling hash). Together
with `canonicalSerialize` this models
`hex.EncodeToString(sha256.Sum256(json.Marshal(spec)))`: what the claims use
is only that the stored checksum is a fixed deterministic function of the
canonical serialisation of the spec. -/
def stringDigest (s : String) : Nat :=
  s.data.foldl (fun h c => (h * 131 + c.toNat) % (2 ^ 64)) 5381

/-- The canonical content hash of a spec (models the sha256 hex digest stored
in `DeviceType.Checksum`). -/
def canonicalHash (spec : TypeSpec) : String :=
  toString (stringDigest (canonicalSerialize spec))

/-- The candidate `device_types` row built by `ImportDeviceType` before the
upsert. `freshId` models `uuid.NewString()`; gorm fills both timestamps with
the transaction time on insert. -/
def mkTypeRow (freshId : String) (spec : TypeSpec) (checksum : String) (now : Nat) :
    DeviceTypeRow :=
  { id := freshId
    typeKey := spec.typeKey
    nameEn := spec.nameEn
    vendor := spec.vendor
    model := spec.model
    version := spec.version
    checksum := checksum
    createdAt := now
    updatedAt := now
    deletedAt := none }

/-- Step 1 of the import transaction: the attempt to upsert the
`device_types` row by `type_key`. The `ON CONFLICT DO UPDATE` assignment
list built at importer.go line 112 names the column name_en, but the
`device_types` table has no such column: `DeviceType.Name` carries no
column tag, so gorm maps it to the column name. SQLite resolves every
identifier of the statement at prepare time, so the whole INSERT — the
conflict clause included — fails with a no-such-column error before any
row is read or written, whatever the stored state and whether or not a
conflict would occur. The candidate row (`mkTypeRow`) is built but never
reaches the table. -/
def typeUpsert (_freshId : String) (_spec : TypeSpec) (_checksum : String) (_now : Nat)
    (_ts : List DeviceTypeRow) : Except String (List DeviceTypeRow) :=
  .error "no such column: name_en"

/-- The candidate `device_type_points` row built for one point of the spec.
The fresh id models `uuid.NewString()`; it is derived from the generator tag
and the point code, which are distinct within one import because validation
rejects duplicate codes. -/
def mkPointRow (gen : String) (spec : TypeSpec) (p : PointSpec) (now : Nat) : PointRow :=
  { id := gen ++ "/" ++ p.code
    typeKey := spec.typeKey
    pointCode := p.code
    pointKind := p.kind
    vendor := spec.vendor
    model := spec.model
    nameI18n := p.nameI18n
    unit := p.unit
    rw := normalizeRW p.rw
    enabled := true
    fc := p.modbus.fc
    address := p.modbus.address
    quantity := defaultU16 p.modbus.quantity 1
    dataType := p.modbus.dataType
    bitIndex := p.modbus.bitIndex
    byteOrder := p.modbus.byteOrder
    scale := defaultF64 p.modbus.scale 1
    offset := p.modbus.offset
    precision := p.modbus.precision
    enumMapJson := (match p.modbus.enumMap with | some e => e | none => "null")
    createdAt := now
    updatedAt := now
    deletedAt := none }

/-- The `ON CONFLICT (type_key, point_code) DO UPDATE` assignment of the
point upsert. Every content column is overwritten from the candidate row,
`updated_at` is set to the transaction time, and `deleted_at` is reset to
NULL (reviving a previously soft-deleted point); id and created_at keep
their stored values. -/
def owPointRow (spec : TypeSpec) (p : PointSpec) (now : Nat) (r : PointRow) : PointRow :=
  { r with
    pointKind := p.kind
    vendor := spec.vendor
    model := spec.model
    nameI18n := p.nameI18n
    unit := p.unit
    rw := normalizeRW p.rw
    enabled := true
    fc := p.modbus.fc
    address := p.modbus.address
    quantity := defaultU16 p.modbus.quantity 1
    dataType := p.modbus.dataType
    bitIndex := p.modbus.bitIndex
    byteOrder := p.modbus.byteOrder
    scale := defaultF64 p.modbus.scale 1
    offset := p.modbus.offset
    precision := p.modbus.precision
    enumMapJson := (match p.modbus.enumMap with | some e => e | none => "null")
    updatedAt := now
    deletedAt := none }

/-- Whether a stored point row is hit by the `(type_key, point_code)`
conflict of the candidate row for point `p` of spec `spec`. -/
def rowMatch (spec : TypeSpec) (p : PointSpec) (r : PointRow) : Bool :=
  r.typeKey == spec.typeKey && r.pointCode == p.code

/-- One point upsert (step 2 of the transaction, one loop iteration). -/
def upsertPoint (gen : String) (spec : TypeSpec) (now : Nat) (ps : List PointRow)
    (p : PointSpec) : List PointRow :=
  if ps.any (rowMatch spec p) then
    ps.map (fun r => if rowMatch spec p r then owPointRow spec p now r else r)
  else
    ps ++ [mkPointRow gen spec p now]

/-- All point upserts of the import, in spec order. -/
def upsertPoints (gen : String) (spec : TypeSpec) (now : Nat) (ps : List PointRow) :
    List PointSpec → List PointRow
  | [] => ps
  | p :: rest => upsertPoints gen spec now (upsertPoint gen spec now ps p) rest

/-- Step 3 of the transaction, on one row: handling of points that exist in
storage for this type key but are absent from the spec. gorm's default scope
adds deleted_at IS NULL to both the soft `Delete` and the `Updates` query,
so rows already soft-deleted are untouched. The soft delete writes only
`deleted_at`; the disable update writes `enabled` and (gorm-automatically)
`updated_at`. -/
def missingFix (spec : TypeSpec) (opt : ImportOptions) (codes : List String) (now : Nat)
    (r : PointRow) : PointRow :=
  if r.typeKey == spec.typeKey && !codes.contains r.pointCode && r.deletedAt == none then
    if opt.softDeleteMissing then { r with deletedAt := some now }
    else { r with enabled := false, updatedAt := now }
  else r

/-- The point-upsert loop of the transaction under the storage-fault oracle
`failAt`: the k-th row operation fails when `failAt k` holds, modelling a
database error on that row. -/
def goPoints (failAt : Nat → Bool) (gen : String) (spec : TypeSpec) (now : Nat)
    (k : Nat) (ps : List PointRow) : List PointSpec → Except String (List PointRow)
  | [] => .ok ps
  | p :: rest =>
    if failAt k then .error ("db error: point upsert " ++ p.code)
    else goPoints failAt gen spec now (k + 1) (upsertPoint gen spec now ps p) rest

/-- The body of the import transaction (the closure passed to
`db.Transaction`), once validation has passed. The type upsert runs first
and — because its conflict clause names the nonexistent column name_en —
deterministically errors, so the point upserts (operations 1..n, which the
oracle `failAt` may additionally fail) and the missing-points statement
(operation n+1) are never reached at runtime; they are kept here because
they embed real source text (importer.go lines 118..208). -/
def txBody (failAt : Nat → Bool) (gen : String) (now : Nat) (σ : Storage)
    (spec : TypeSpec) (opt : ImportOptions) : Except String Storage :=
  match typeUpsert (gen ++ "/type") spec (canonicalHash spec) now σ.types with
  | .error e => .error e
  | .ok ts =>
    match goPoints failAt gen spec now 1 σ.points spec.points with
    | .error e => .error e
    | .ok ps =>
      if failAt (1 + spec.points.length) then .error "db error: missing points" else
      let codes := spec.points.map (·.code)
      .ok { types := ts, points := ps.map (missingFix spec opt codes now) }

/-- Models `ImportDeviceType`. Returns the resulting storage paired with the
returned error. Validation failure aborts before the transaction is opened;
an error inside the transaction body rolls the storage back to its initial
state (the semantics of `db.Transaction`). -/
def importDeviceType (failAt : Nat → Bool) (gen : String) (now : Nat) (σ : Storage)
    (spec : TypeSpec) (opt : ImportOptions) : Storage × Option String :=
  match validateSpec spec with
  | some e => (σ, some e)
  | none =>
    match txBody failAt gen now σ spec opt with
    | .error e => (σ, some e)
    | .ok σ2 => (σ2, none)

/-- The healthy-database oracle: no storage operation fails. -/
def noFail : Nat → Bool := fun _ => false

end Importer

namespace Simulator

/-- The Modbus protocol errors the simulator handlers return
(`modbus.ErrIllegalFunction`, `modbus.ErrIllegalDataAddress`). -/
inductive MbError
  | illegalFunction
  | illegalDataAddress
  deriving DecidableEq, Repr

/-- Models `modbus.CoilsRequest` (also reused for
`modbus.DiscreteInputsRequest`, which carries the same addressing fields).
`unitId` is a `uint8`, `addr` and `quantity` are `uint16`. -/
structure CoilsRequest where
  unitId : Nat
  addr : Nat
  quantity : Nat
  isWrite : Bool
  args : List Bool
  deriving DecidableEq, Repr

/-- Models `modbus.HoldingRegistersRequest` / `modbus.InputRegistersRequest`:
16-bit register values are `Nat` below `2 ^ 16`. -/
structure RegsRequest where
  unitId : Nat
  addr : Nat
  quantity : Nat
  isWrite : Bool
  args : List Nat
  deriving DecidableEq, Repr

/-- The coil bank size: `coils [100]bool` in the `cmbus.ModbusInstance`
struct. -/
def numCoils : Nat := 100

/-- The body of one iteration of the `HandleCoils` loop at bank index
`addr`: the write is ignored when the register address is 80. -/
def coilsStep (isWrite : Bool) (bank : List Bool) (addr : Nat) (arg : Bool) : List Bool :=
  if isWrite && addr != 80 then bank.set addr arg else bank

/-- The `HandleCoils` loop: one element of `args` per iteration (the library
guarantees `len(req.Args) = quantity` for writes; reads never look at the
argument). Each iteration appends the post-write value of the visited coil
to the response. -/
def coilsLoop (isWrite : Bool) (addr : Nat) (bank : List Bool) :
    List Bool → List Bool × List Bool
  | [] => (bank, [])
  | a :: rest =>
    let bank1 := coilsStep isWrite bank addr a
    let (bankF, resF) := coilsLoop isWrite (addr + 1) bank1 rest
    (bankF, bank1.getD addr false :: resF)

/-- Models `cmbus.ModbusInstance.HandleCoils`: the foreign-unit-id branch
returns early with nil error and an empty response (the
`err = modbus.ErrIllegalFunction` line in the source is commented out); the
range check rejects requests reaching past the 100-coil bank; otherwise the
loop writes (skipping address 80) and echoes post-operation values. Returns
(new bank, response, error). -/
def handleCoils (bank : List Bool) (req : CoilsRequest) :
    List Bool × List Bool × Option MbError :=
  if req.unitId != 1 then (bank, [], none)
  else if bank.length < req.addr + req.quantity then (bank, [], some .illegalDataAddress)
  else
    let (bank2, res) :=
      coilsLoop req.isWrite req.addr bank
        ((List.range req.quantity).map (fun i => req.args.getD i false))
    (bank2, res, none)

/-- Models `cmbus.ModbusInstance.HandleDiscreteInputs`: unconditionally
`ErrIllegalFunction` (the simulator does not implement the discrete-input
table). -/
def handleDiscreteInputs (_req : CoilsRequest) : List Bool × Option MbError :=
  ([], some .illegalFunction)

/-- The `HandleHoldingRegisters` loop. `regAddr = req.Addr + uint16(i)` is
16-bit addition, hence the explicit `% 2 ^ 16`; the bank
(`holdingReg [65636]uint16`) covers every 16-bit address, embedded as a
total function. The first argument counts remaining iterations, the second
is the running loop index `i`. -/
def holdLoop (isWrite : Bool) (args : List Nat) (addr : Nat) :
    Nat → Nat → (Nat → Nat) → (Nat → Nat) × List Nat
  | 0, _, bank => (bank, [])
  | n + 1, i, bank =>
    let regAddr := (addr + i) % 65536
    let bank1 := if isWrite then Function.update bank regAddr (args.getD i 0) else bank
    let (bankF, resF) := holdLoop isWrite args addr n (i + 1) bank1
    (bankF, bank1 regAddr :: resF)

/-- Models `cmbus.ModbusInstance.HandleHoldingRegisters`. The unit-id check
in the source is an empty if-block (both the error assignment and the early
return are commented out), so every unit id is served; no error is ever
returned. -/
def handleHoldingRegisters (bank : Nat → Nat) (req : RegsRequest) :
    (Nat → Nat) × List Nat × Option MbError :=
  let (bank2, res) := holdLoop req.isWrite req.args req.addr req.quantity 0 bank
  (bank2, res, none)

/-- The float32 bit pattern of 3.1415 (`math.Float32bits(3.1415)`). -/
def float32Bits31415 : Nat := 0x40490E56

/-- The value `HandleInputRegisters` serves at one input-register address,
if any: 100 and 101 are static, 200/201 expose the 32-bit uptime counter,
202/203 the 32-bit unix timestamp, 300/301 the float32 bits of 3.1415.
`none` models the default branch (`ErrIllegalDataAddress`). -/
def inputRegValue (uptime ts : Nat) (regAddr : Nat) : Option Nat :=
  if regAddr = 100 then some 0x1111
  else if regAddr = 101 then some 65535
  else if regAddr = 200 then some ((uptime >>> 16) % 65536)
  else if regAddr = 201 then some (uptime % 65536)
  else if regAddr = 202 then some ((ts >>> 16) % 65536)
  else if regAddr = 203 then some (ts % 65536)
  else if regAddr = 300 then some ((float32Bits31415 >>> 16) % 65536)
  else if regAddr = 301 then some (float32Bits31415 % 65536)
  else none

/-- The `HandleInputRegisters` loop: on the first unknown address it returns
immediately with `ErrIllegalDataAddress` (the partially accumulated response
is discarded by the library once err is non-nil; the embedding drops it). -/
def inputLoop (uptime ts : Nat) : Nat → Nat → List Nat × Option MbError
  | _, 0 => ([], none)
  | regAddr, n + 1 =>
    match inputRegValue uptime ts regAddr with
    | none => ([], some .illegalDataAddress)
    | some v =>
      let (res, err) := inputLoop uptime ts (regAddr + 1) n
      (v :: res, err)

/-- Models `cmbus.ModbusInstance.HandleInputRegisters`. The unit-id check is
an empty if-block, as in the holding-register handler. The Go loop bound
`regAddr < req.Addr + req.Quantity` is computed in `uint16`, so when
`addr + quantity` wraps past 2^16 the loop runs zero times; the iteration
count below reproduces that. `uptime` is the instance's 32-bit uptime
counter; `ts` is the current unix time, truncated to 32 bits as in
`uint32(time.Now().Unix() & 0xffffffff)`. -/
def handleInputRegisters (uptime ts : Nat) (req : RegsRequest) :
    List Nat × Option MbError :=
  let endA := (req.addr + req.quantity) % 65536
  let n := if req.addr < endA then endA - req.addr else 0
  inputLoop (uptime % 2 ^ 32) (ts % 2 ^ 32) req.addr n

/-- An all-false coil bank of the simulator's size, used by witnesses. -/
def bankW : List Bool := List.replicate 100 false

/-- A write request covering coils 79..81 (containing the read-only coil
80), used by witnesses. -/
def reqW : CoilsRequest :=
  { unitId := 1, addr := 79, quantity := 3, isWrite := true
    args := [true, true, true] }

/-- A request reaching past the last coil (98..100), used by witnesses. -/
def reqX : CoilsRequest :=
  { unitId := 1, addr := 98, quantity := 3, isWrite := true
    args := [true, true, true] }

end Simulator

namespace Worker

/-- Models `models.ChannelStatus` (the worker-status snapshot). -/
structure ChannelStatus where
  working : Bool
  linking : Bool
  currentDelay : Nat
  bytesSent : Nat
  bytesReceived : Nat
  pointsTotalRead : Nat
  pointsErrorRead : Nat
  deriving DecidableEq, Repr

/-- The all-zero status a fresh instance starts with. -/
def ChannelStatus.zero : ChannelStatus :=
  { working := false, linking := false, currentDelay := 0, bytesSent := 0
    bytesReceived := 0, pointsTotalRead := 0, pointsErrorRead := 0 }

/-- Models `models.Channel` (the `mbus.InstanceConfig.Model` field). Go
struct equality in `UpdateConfig` compares every field, so the embedding
keeps all of them; `time.Duration` and `time.Time` fields become `Nat`. -/
structure Channel where
  id : Nat
  delay : Nat
  debugLog : Bool
  debugExpiry : Nat
  verifyHeader : Bool
  onnectTimeout : Nat
  downgrade : Bool
  retryMax : Nat
  retryInterval : Nat
  endianness : Nat
  wordOrder : Nat
  sendInterval : Nat
  physicalLink : String
  uuid : String
  disable : Bool
  plugin : String
  device : String
  device2 : String
  stopBits : Nat
  speed : Nat
  dataBits : Nat
  parity : Nat
  addrStart : Bool
  tcpIPAddr : String
  tcpPort : Nat
  backupTCPIPAddr : String
  backupTCPPort : Nat
  createdAt : Nat
  updatedAt : Nat
  status : ChannelStatus
  deriving DecidableEq, Repr

/-- Models `mbus.InstanceConfig`. -/
structure InstanceConfig where
  model : Channel
  url : String
  unitID : Nat
  startAddr : Nat
  quantity : Nat
  regType : String
  deriving DecidableEq, Repr

/-- The lifecycle-relevant state of one `mbus.ModbusInstance`.
`initialized` is the `init` flag; `closes` counts completed `Close()`
teardowns (each is one pass of the acquisition task through IDLE);
`pollers` counts poller goroutines started by `Init`. `parentCancelled`
models `parentCtx.Err() != nil`. -/
structure MInst where
  initialized : Bool
  cfg : InstanceConfig
  parentCancelled : Bool
  closes : Nat
  pollers : Nat
  deriving DecidableEq, Repr

/-- The configuration rewriting `Init` performs before starting the poller:
the URL is derived from the channel (serial channels override the TCP form),
and zero quantity / empty register type get their defaults. -/
def initTransform (c : InstanceConfig) : InstanceConfig :=
  let url :=
    if c.model.physicalLink == "serial" then "rtu://" ++ c.model.device
    else "tcp://" ++ c.model.tcpIPAddr ++ ":" ++ toString c.model.tcpPort
  { c with
    url := url
    quantity := if c.quantity == 0 then 10 else c.quantity
    regType := if c.regType == "" then "holding" else c.regType }

/-- Models `mbus.ModbusInstance.Init`: a no-op returning nil when already
initialised; otherwise it rewrites the config, creates the client and spawns
the poller. The derived URL always carries a scheme `modbus.NewClient`
accepts, so client creation succeeds in the embedding. -/
def instInit (st : MInst) : MInst × Option String :=
  if st.initialized then (st, none)
  else
    ({ st with
        cfg := initTransform st.cfg
        initialized := true
        pollers := st.pollers + 1 }, none)

/-- Models `mbus.ModbusInstance.Close`: a no-op returning nil when not
initialised; otherwise it cancels the child scope, awaits the poller,
closes the client and clears the init flag. -/
def instClose (st : MInst) : MInst × Option String :=
  if !st.initialized then (st, none)
  else ({ st with initialized := false, closes := st.closes + 1 }, none)

/-- The default filling `UpdateConfig` applies to the incoming config before
comparing it with the stored one (`Quantity == 0` and `RegType == ""`). -/
def updateDefaults (c : InstanceConfig) : InstanceConfig :=
  { c with
    quantity := if c.quantity == 0 then 10 else c.quantity
    regType := if c.regType == "" then "holding" else c.regType }

/-- Models `mbus.ModbusInstance.UpdateConfig`. `raw = none` models an
argument that is nil or fails the type assertion, which keeps the stored
config. The restart decision is `needRestart := (newCfg != m.cfg)`: any
field difference whatsoever triggers close-then-init; the re-init runs under
the original parent context, and is skipped with the context error when that
parent is already cancelled. -/
def instUpdateConfig (st : MInst) (raw : Option InstanceConfig) : MInst × Option String :=
  let newCfg := updateDefaults (raw.getD st.cfg)
  let needRestart := decide (newCfg ≠ st.cfg)
  let st1 : MInst := { st with cfg := newCfg }
  if !needRestart then (st1, none)
  else
    let (st2, e2) := instClose st1
    match e2 with
    | some e => (st2, some e)
    | none =>
      if st2.parentCancelled then (st2, some "context canceled")
      else instInit st2

/-- The state of the acquisition loop of `mbus.ModbusInstance.runPoller`:
whether the inner (connected) loop is live, how many times the loop has
closed its transport, and the status counters. -/
structure PollerState where
  connected : Bool
  transportCloses : Nat
  status : ChannelStatus
  deriving DecidableEq, Repr

/-- Models one ticker iteration of the inner loop of `runPoller`.
`readResult = none` models `client.ReadRegisters` returning an error of any
kind, a Modbus exception response included: the loop closes the transport,
backs off and leaves the inner loop so the outer loop reconnects. On
success only the two byte counters advance. -/
def pollTick (st : PollerState) (readResult : Option (List Nat)) : PollerState :=
  match readResult with
  | none =>
    { st with connected := false, transportCloses := st.transportCloses + 1 }
  | some _ =>
    { st with
        status :=
          { st.status with
              bytesReceived := st.status.bytesReceived + 1
              bytesSent := st.status.bytesSent + 1 } }

end Worker

namespace Manager

/-- One management operation on the instance manager, with the outcomes of
the instance-side calls it makes: `newOk` is whether the factory's `New`
succeeds, `initOk` whether the created instance's `Init` succeeds, `closeOk`
whether the destroyed instance's `Close` succeeds. -/
inductive Op
  | create (typ id : String) (newOk initOk : Bool)
  | destroy (typ id : String) (closeOk : Bool)
  deriving DecidableEq, Repr

/-- The live-instance map of `core.InstanceManager`, flattened from the
two-level `type -> id -> instance` map to bindings keyed by `(type, id)`
(the two views have the same bindings: `Destroy` removes emptied inner maps,
which is unobservable here). Each live instance is identified by the
sequence number of the create operation that constructed it. -/
structure MgrState where
  instances : List ((String × String) × Nat)
  deriving DecidableEq, Repr

/-- Looks up the live instance bound to `(typ, id)`. Models
`InstanceManager.Get`. -/
def lookupInst (σ : MgrState) (key : String × String) : Option Nat :=
  (σ.instances.find? (fun b => b.1 == key)).map (·.2)

/-- Binds `(typ, id)` to a new instance, replacing any existing binding —
`m.instances[typ][id] = inst` overwrites. -/
def insertInst (σ : MgrState) (key : String × String) (tok : Nat) : MgrState :=
  if σ.instances.any (fun b => b.1 == key) then
    ⟨σ.instances.map (fun b => if b.1 == key then (key, tok) else b)⟩
  else ⟨σ.instances ++ [(key, tok)]⟩

/-- Removes the binding of `(typ, id)`. -/
def removeInst (σ : MgrState) (key : String × String) : MgrState :=
  ⟨σ.instances.filter (fun b => !(b.1 == key))⟩

/-- Models `InstanceManager.CreateWithContext` (`Create` forwards to it):
reject empty type or id, look up the factory, construct, then `Init`; the
instance is stored only after `Init` returns nil, so an init failure adds
nothing. `facs` is the set of registered factory types; `tok` identifies
the constructed instance. Returns the new state and whether the operation
succeeded (returned a nil error). -/
def mgrCreate (facs : List String) (σ : MgrState) (typ id : String)
    (newOk initOk : Bool) (tok : Nat) : MgrState × Bool :=
  if typ == "" || id == "" then (σ, false)
  else if !facs.contains typ then (σ, false)
  else if !newOk then (σ, false)
  else if !initOk then (σ, false)
  else (insertInst σ (typ, id) tok, true)

/-- Models `InstanceManager.Destroy`: missing type or id is an error; a
failing `Close` is returned as an error and the binding stays; otherwise
the binding is deleted. -/
def mgrDestroy (σ : MgrState) (typ id : String) (closeOk : Bool) : MgrState × Bool :=
  match lookupInst σ (typ, id) with
  | none => (σ, false)
  | some _ =>
    if !closeOk then (σ, false)
    else (removeInst σ (typ, id), true)

/-- One step of the manager under an operation; `tok` is the sequence number
of the step, used as the identity of a created instance. -/
def mgrStep (facs : List String) (σ : MgrState) (tok : Nat) : Op → MgrState × Bool
  | .create typ id newOk initOk => mgrCreate facs σ typ id newOk initOk tok
  | .destroy typ id closeOk => mgrDestroy σ typ id closeOk

/-- Runs a sequence of operations, returning the final state and the log of
each operation paired with its success flag. -/
def mgrRun (facs : List String) : MgrState → Nat → List Op →
    MgrState × List (Op × Bool)
  | σ, _, [] => (σ, [])
  | σ, k, op :: rest =>
    let (σ1, ok) := mgrStep facs σ k op
    let (σf, log) := mgrRun facs σ1 (k + 1) rest
    (σf, (op, ok) :: log)

/-- Number of successful creates of `(typ, id)` in a run log. -/
def createCount (log : List (Op × Bool)) (typ id : String) : Nat :=
  log.countP (fun e =>
    match e with
    | (.create t i _ _, ok) => ok && t == typ && i == id
    | _ => false)

/-- Number of successful destroys of `(typ, id)` in a run log. -/
def destroyCount (log : List (Op × Bool)) (typ id : String) : Nat :=
  log.countP (fun e =>
    match e with
    | (.destroy t i _, ok) => ok && t == typ && i == id
    | _ => false)

/-- Multiplicity of `(typ, id)` among the live instances. -/
def liveCount (σ : MgrState) (typ id : String) : Nat :=
  σ.instances.countP (fun b => b.1 == (typ, id))

/-- The reference walk for one key: the binding `(typ, id)` should hold
after a list of operations, starting from binding `cur`, where `k` numbers
the operations. A guarded create of this key binds it; a destroy of this
key with a successful close clears it; operations on other keys leave it
alone. -/
def keyWalk (facs : List String) (typ id : String) : Option Nat → Nat → List Op → Option Nat
  | cur, _, [] => cur
  | cur, k, .create t i newOk initOk :: rest =>
    let cur2 :=
      if (t, i) = (typ, id) &&
          !(t == "" || i == "") && facs.contains t && newOk && initOk then
        some k
      else cur
    keyWalk facs typ id cur2 (k + 1) rest
  | cur, k, .destroy t i closeOk :: rest =>
    let cur2 :=
      if (t, i) = (typ, id) && cur.isSome && closeOk then none else cur
    keyWalk facs typ id cur2 (k + 1) rest

end Manager

namespace Importer

/-- A fixed point spec used by concrete counterexamples and witnesses. -/
def pointA : PointSpec :=
  { code := "A", kind := "holding", rw := "R", unit := "V"
    nameI18n := [("en", "Point A")]
    modbus := { fc := 3, address := 100, quantity := 2, dataType := "u32"
                bitIndex := none, byteOrder := "", scale := 0, offset := 0
                precision := 0, enumMap := none } }

/-- A fixed one-point spec used by concrete counterexamples and witnesses. -/
def specA : TypeSpec :=
  { typeKey := "inv-x", nameEn := "Inverter X", vendor := "v", model := "m", version := "1"
    points := [pointA] }

/-- A spec rejected by validation (empty type key). -/
def specBad : TypeSpec :=
  { specA with typeKey := "" }

/-- A small non-empty storage used by witnesses. -/
def storageW : Storage :=
  { types := [mkTypeRow "w/type" specA (canonicalHash specA) 0]
    points := [mkPointRow "w" specA pointA 0] }

/-- A stored point row with code "C" under type inv-x, enabled and live: a
point present in storage but absent from `specA`, used by witnesses. -/
def rowC : PointRow :=
  { id := "w/C", typeKey := "inv-x", pointCode := "C", pointKind := "holding"
    vendor := "v", model := "m", nameI18n := [("en", "Point C")], unit := ""
    rw := "R", enabled := true, fc := 3, address := 1, quantity := 1
    dataType := "u16", bitIndex := none, byteOrder := "", scale := 1, offset := 0
    precision := 0, enumMapJson := "null", createdAt := 0, updatedAt := 0
    deletedAt := none }

/-- A soft-deleted stored row for point "A" of `specA`, used by witnesses to
exhibit revival. -/
def rowAdel : PointRow :=
  { rowC with pointCode := "A", deletedAt := some 3 }

end Importer

/-- A channel value with zeroed fields, used to build concrete worker
configurations. -/
def chan0 : Worker.Channel :=
  { id := 0, delay := 0, debugLog := false, debugExpiry := 0, verifyHeader := false
    onnectTimeout := 0, downgrade := false, retryMax := 0, retryInterval := 0
    endianness := 0, wordOrder := 0, sendInterval := 0, physicalLink := ""
    uuid := "", disable := false, plugin := "", device := "", device2 := ""
    stopBits := 0, speed := 0, dataBits := 0, parity := 0, addrStart := false
    tcpIPAddr := "localhost", tcpPort := 5502, backupTCPIPAddr := "", backupTCPPort := 0
    createdAt := 0, updatedAt := 0, status := Worker.ChannelStatus.zero }

/-- A worker configuration as it is stored after `Init` has run (URL derived,
defaults applied), so that `UpdateConfig` with the identical value would not
restart. -/
def cfgInited : Worker.InstanceConfig :=
  Worker.initTransform
    { model := chan0, url := "", unitID := 1, startAddr := 0, quantity := 10
      regType := "holding" }

/-- An initialised worker instance holding `cfgInited`. -/
def instW : Worker.MInst :=
  { initialized := true, cfg := cfgInited, parentCancelled := false
    closes := 0, pollers := 1 }

/-- C2. A catalogue import is atomic: whenever `ImportDeviceType` returns an
error — a validation failure, or a storage fault injected at any row
operation of the transaction — the persisted storage is exactly the storage
from before the import; a validation failure in particular returns before
the transaction is even opened, with the storage untouched. -/
theorem import_is_atomic (failAt : Nat → Bool) (gen : String) (now : Nat)
    (σ : Importer.Storage) (spec : Importer.TypeSpec) (opt : Importer.ImportOptions) :
    (∀ e, (Importer.importDeviceType failAt gen now σ spec opt).2 = some e →
      (Importer.importDeviceType failAt gen now σ spec opt).1 = σ) ∧
    (∀ v, Importer.validateSpec spec = some v →
      Importer.importDeviceType failAt gen now σ spec opt = (σ, some v)) := by
  constructor
  · intro e h
    unfold Importer.importDeviceType at h ⊢
    cases hv : Importer.validateSpec spec with
    | some msg => simp [hv]
    | none =>
      simp only [hv] at h ⊢
      cases ht : Importer.txBody failAt gen now σ spec opt with
      | error e2 => simp [ht]
      | ok σ2 => simp [ht] at h
  · intro v hv
    unfold Importer.importDeviceType
    simp [hv]

/-- Witness for C2: importing an invalid spec over a non-empty storage fails
and leaves that storage unchanged, and a valid import — whose transaction
fails at the type upsert — also leaves it unchanged. -/
theorem import_is_atomic_witness :
    Importer.importDeviceType Importer.noFail "g" 5 Importer.storageW Importer.specBad
        ⟨true⟩ = (Importer.storageW, some "type_key is required") ∧
    (Importer.importDeviceType (fun k => k == 0) "g" 5 Importer.storageW Importer.specA
        ⟨true⟩).1 = Importer.storageW := by
  constructor
  · exact (import_is_atomic Importer.noFail "g" 5 Importer.storageW Importer.specBad
      ⟨true⟩).2 "type_key is required" (by decide)
  · exact (import_is_atomic (fun k => k == 0) "g" 5 Importer.storageW Importer.specA
      ⟨true⟩).1 "no such column: name_en" (by decide)

/-- C5 counterexample. A failed read (e.g. a Modbus exception response) does
tear down the transport and records nothing: from a connected state with
zeroed counters, one failing tick leaves `connected = false` with one
transport close, while `points_error_read` stays 0 — against the claim that
the worker keeps the connection open and records the failed read. -/
theorem poll_read_error_closes_transport :
    (Worker.pollTick ⟨true, 0, Worker.ChannelStatus.zero⟩ none).connected = false ∧
    (Worker.pollTick ⟨true, 0, Worker.ChannelStatus.zero⟩ none).transportCloses = 1 ∧
    (Worker.pollTick ⟨true, 0, Worker.ChannelStatus.zero⟩ none).status.pointsErrorRead = 0 := by
  decide

/-- C5 amended. When a read issued by the acquisition loop fails — a Modbus
exception response included — the worker closes its transport and leaves the
inner loop (the outer loop reconnects after the backoff); no status counter
is updated, in particular no failed point read is recorded. On a successful
read only the two byte counters advance. -/
theorem poll_read_error_behaviour (st : Worker.PollerState) (vs : List Nat) :
    Worker.pollTick st none =
      { st with connected := false, transportCloses := st.transportCloses + 1 } ∧
    (Worker.pollTick st none).status = st.status ∧
    Worker.pollTick st (some vs) =
      { st with
          status :=
            { st.status with
                bytesReceived := st.status.bytesReceived + 1
                bytesSent := st.status.bytesSent + 1 } } := by
  refine ⟨rfl, ?_, rfl⟩
  simp [Worker.pollTick]

/-- C6. The simulator does not enforce the configured unit id: a
holding-register write with unit id 2 (the configured unit is 1) is served
normally — the bank is modified and no error is returned — and a coils
request with unit id 2 returns an empty success instead of
`ErrIllegalFunction`. This is the failing input for the claim (the source
comments its own unit-id rejection out). -/
theorem simulator_foreign_unit_id_served :
    (Simulator.handleHoldingRegisters (fun _ => 0)
        ⟨2, 0, 1, true, [5]⟩).2.2 = none ∧
    (Simulator.handleHoldingRegisters (fun _ => 0)
        ⟨2, 0, 1, true, [5]⟩).2.1 = [5] ∧
    (Simulator.handleHoldingRegisters (fun _ => 0)
        ⟨2, 0, 1, true, [5]⟩).1 0 = 5 ∧
    (Simulator.handleCoils (List.replicate 100 false)
        ⟨2, 0, 1, true, [true]⟩) = (List.replicate 100 false, [], none) := by
  refine ⟨rfl, rfl, ?_, by decide⟩
  simp [Simulator.handleHoldingRegisters, Simulator.holdLoop, Function.update]

/-- C8. Worker lifecycle idempotence: `Init` on an initialised instance is a
no-op returning nil; `Close` on a closed (or never initialised) instance is
a no-op returning nil; and after `Close` returns, the instance is closed and
a subsequent `Init` succeeds and starts it again. -/
theorem instance_init_close_idempotent (st : Worker.MInst) :
    (st.initialized = true → Worker.instInit st = (st, none)) ∧
    (st.initialized = false → Worker.instClose st = (st, none)) ∧
    ((Worker.instClose st).1.initialized = false ∧ (Worker.instClose st).2 = none ∧
      (Worker.instInit (Worker.instClose st).1).2 = none ∧
      (Worker.instInit (Worker.instClose st).1).1.initialized = true) := by
  cases h : st.initialized <;>
    simp [Worker.instInit, Worker.instClose, h]

/-- Witness for C8 at a concrete instance. -/
theorem instance_init_close_idempotent_witness :
    Worker.instInit instW = (instW, none) ∧
    (Worker.instInit (Worker.instClose instW).1).1.initialized = true :=
  ⟨(instance_init_close_idempotent instW).1 (by decide),
   (instance_init_close_idempotent instW).2.2.2.2.2⟩

/-- C4 counterexample. `UpdateConfig` that changes only the start address —
a non-structural field that affects neither transport nor framing — still
terminates the acquisition task and re-initialises the worker: the close
counter and the poller counter both advance. -/
theorem update_config_restarts_on_start_addr :
    (Worker.instUpdateConfig instW (some { cfgInited with startAddr := 1 })).1.closes
        = instW.closes + 1 ∧
    (Worker.instUpdateConfig instW (some { cfgInited with startAddr := 1 })).1.pollers
        = instW.pollers + 1 ∧
    instW.closes = 0 := by
  decide

/-- C4 amended. For an initialised worker whose parent scope is alive,
`update-config` stops the worker via `close()` and re-initialises it under
the original parent scope if and only if ANY field of the incoming config
(after defaulting quantity and register type) differs from the stored one —
transport-affecting or not. Only when the defaulted new config is identical
to the stored config is the task left running, with the (identical) config
in place for the next loop iteration. -/
theorem update_config_restart_iff_changed (st : Worker.MInst)
    (raw : Option Worker.InstanceConfig)
    (hinit : st.initialized = true) (hpar : st.parentCancelled = false) :
    (Worker.updateDefaults (raw.getD st.cfg) = st.cfg →
      Worker.instUpdateConfig st raw = ({ st with cfg := st.cfg }, none)) ∧
    (Worker.updateDefaults (raw.getD st.cfg) ≠ st.cfg →
      Worker.instUpdateConfig st raw =
        ({ st with
            cfg := Worker.initTransform (Worker.updateDefaults (raw.getD st.cfg))
            initialized := true
            closes := st.closes + 1
            pollers := st.pollers + 1 }, none)) := by
  constructor
  · intro h
    unfold Worker.instUpdateConfig
    rw [h]
    simp
  · intro h
    unfold Worker.instUpdateConfig
    simp only [h, decide_eq_true_eq, decide_not, Bool.not_not, if_true, Bool.not_eq_true]
    simp [Worker.instClose, Worker.instInit, hinit, hpar, h]

/-- Witness for C4 amended: at the concrete instance `instW`, an identical
config does not restart, and a config differing only in the start address
restarts exactly once. -/
theorem update_config_restart_iff_changed_witness :
    Worker.instUpdateConfig instW (some cfgInited) = ({ instW with cfg := instW.cfg }, none) ∧
    Worker.instUpdateConfig instW (some { cfgInited with startAddr := 1 }) =
      ({ instW with
          cfg := Worker.initTransform
            (Worker.updateDefaults ((some { cfgInited with startAddr := 1 }).getD instW.cfg))
          initialized := true
          closes := instW.closes + 1
          pollers := instW.pollers + 1 }, none) :=
  ⟨(update_config_restart_iff_changed instW (some cfgInited) (by decide) (by decide)).1
      (by decide),
   (update_config_restart_iff_changed instW (some { cfgInited with startAddr := 1 })
      (by decide) (by decide)).2 (by decide)⟩

/-- C9 counterexample. Two successful creates of the same `(type, id)` (the
second overwrites the stored instance) leave one live instance, while the
multiset difference of successful creates and destroys gives that key
multiplicity two — so the live map is not the multiset difference of creates
and destroys. -/
theorem manager_map_not_multiset_difference :
    Manager.liveCount
        (Manager.mgrRun ["mbus"] ⟨[]⟩ 0
          [.create "mbus" "a" true true, .create "mbus" "a" true true]).1 "mbus" "a" = 1 ∧
    Manager.createCount
        (Manager.mgrRun ["mbus"] ⟨[]⟩ 0
          [.create "mbus" "a" true true, .create "mbus" "a" true true]).2 "mbus" "a"
      - Manager.destroyCount
        (Manager.mgrRun ["mbus"] ⟨[]⟩ 0
          [.create "mbus" "a" true true, .create "mbus" "a" true true]).2 "mbus" "a" = 2 := by
  decide

namespace Simulator

theorem coilsLoop_cons (w a : Bool) (rest : List Bool) (addr : Nat) (bank : List Bool) :
    coilsLoop w addr bank (a :: rest) =
      ((coilsLoop w (addr + 1) (coilsStep w bank addr a) rest).1,
        (coilsStep w bank addr a).getD addr false ::
          (coilsLoop w (addr + 1) (coilsStep w bank addr a) rest).2) := rfl

theorem coilsStep_length (w : Bool) (bank : List Bool) (addr : Nat) (a : Bool) :
    (coilsStep w bank addr a).length = bank.length := by
  unfold coilsStep
  split_ifs <;> simp

theorem coilsLoop_length (w : Bool) :
    ∀ (as : List Bool) (addr : Nat) (bank : List Bool),
      (coilsLoop w addr bank as).1.length = bank.length
  | [], _, _ => rfl
  | a :: rest, addr, bank => by
    rw [coilsLoop_cons]
    dsimp only
    rw [coilsLoop_length w rest (addr + 1) (coilsStep w bank addr a)]
    exact coilsStep_length w bank addr a

theorem getD_set {α : Type} : ∀ (l : List α) (i j : Nat) (v d : α),
    (l.set i v).getD j d = if i = j ∧ i < l.length then v else l.getD j d
  | [], i, j, v, d => by simp
  | x :: t, 0, 0, v, d => by simp
  | x :: t, 0, j + 1, v, d => by simp
  | x :: t, i + 1, 0, v, d => by simp
  | x :: t, i + 1, j + 1, v, d => by
    rw [List.set_cons_succ, List.getD_cons_succ, List.getD_cons_succ, getD_set t i j v d]
    by_cases h : i = j ∧ i < t.length
    · obtain ⟨hij, hl⟩ := h
      rw [if_pos ⟨hij, hl⟩, if_pos ⟨by omega, by simp only [List.length_cons]; omega⟩]
    · rw [if_neg h, if_neg (by simp only [List.length_cons] at h ⊢; omega)]

theorem coilsStep_getD (w : Bool) (bank : List Bool) (addr : Nat) (a : Bool) (j : Nat) :
    (coilsStep w bank addr a).getD j false =
      if w = true ∧ addr = j ∧ addr ≠ 80 ∧ addr < bank.length then a
      else bank.getD j false := by
  unfold coilsStep
  by_cases hw : (w && addr != 80) = true
  · rw [if_pos hw, getD_set]
    simp only [Bool.and_eq_true, bne_iff_ne] at hw
    by_cases h : addr = j ∧ addr < bank.length
    · rw [if_pos h, if_pos ⟨hw.1, h.1, hw.2, h.2⟩]
    · rw [if_neg h, if_neg (by
        rintro ⟨_, h1, _, h2⟩
        exact h ⟨h1, h2⟩)]
  · rw [if_neg hw]
    simp only [Bool.and_eq_true, bne_iff_ne, not_and_or] at hw
    rw [if_neg (by
      rintro ⟨h1, _, h2, _⟩
      rcases hw with hw | hw
      · exact hw h1
      · exact hw (by simpa using h2))]

/-- Final-bank characterisation of the coils loop for write requests. -/
theorem coilsLoop_bank_write :
    ∀ (as : List Bool) (addr : Nat) (bank : List Bool),
      addr + as.length ≤ bank.length →
      ∀ j, (coilsLoop true addr bank as).1.getD j false =
        if addr ≤ j ∧ j < addr + as.length ∧ j ≠ 80 then as.getD (j - addr) false
        else bank.getD j false
  | [], addr, bank, _, j => by
    rw [if_neg (by rintro ⟨hh1, hh2, _⟩; simp only [List.length_nil] at hh2; omega)]
    rfl
  | a :: rest, addr, bank, hlen, j => by
    rw [coilsLoop_cons]
    dsimp only
    rw [coilsLoop_bank_write rest (addr + 1) (coilsStep true bank addr a)
      (by rw [coilsStep_length]; simp at hlen; omega) j]
    rw [coilsStep_getD]
    by_cases h1 : addr + 1 ≤ j ∧ j < addr + 1 + rest.length ∧ j ≠ 80
    · rw [if_pos h1, if_pos (by
        obtain ⟨a1, a2, a3⟩ := h1
        exact ⟨by omega, by simp only [List.length_cons]; omega, a3⟩)]
      have : j - addr = (j - (addr + 1)) + 1 := by omega
      rw [this, List.getD_cons_succ]
    · rw [if_neg h1]
      by_cases h2 : addr = j ∧ addr ≠ 80
      · obtain ⟨hje, h80⟩ := h2
        subst hje
        rw [if_pos ⟨rfl, rfl, h80, by simp only [List.length_cons] at hlen; omega⟩,
            if_pos ⟨le_refl addr, by simp only [List.length_cons]; omega, h80⟩]
        simp [Nat.sub_self]
      · rw [if_neg (by
            rintro ⟨_, hje, h80, _⟩
            exact h2 ⟨hje, h80⟩),
          if_neg (by
            rintro ⟨hle, hlt, h80⟩
            rcases Nat.lt_or_ge j (addr + 1) with hj | hj
            · have hje : addr = j := by omega
              exact h2 ⟨hje, by rw [hje]; exact h80⟩
            · exact h1 ⟨hj, by simp only [List.length_cons] at hlt; omega, h80⟩)]

end Simulator

namespace Simulator

theorem coilsStep_false (bank : List Bool) (addr : Nat) (a : Bool) :
    coilsStep false bank addr a = bank := rfl

theorem coilsLoop_bank_read :
    ∀ (as : List Bool) (addr : Nat) (bank : List Bool),
      (coilsLoop false addr bank as).1 = bank
  | [], _, _ => rfl
  | a :: rest, addr, bank => by
    rw [coilsLoop_cons]
    dsimp only
    rw [coilsStep_false]
    exact coilsLoop_bank_read rest (addr + 1) bank

theorem coilsLoop_bank_lower (w : Bool) :
    ∀ (as : List Bool) (addr : Nat) (bank : List Bool) (j : Nat), j < addr →
      (coilsLoop w addr bank as).1.getD j false = bank.getD j false
  | [], _, _, _, _ => rfl
  | a :: rest, addr, bank, j, hj => by
    rw [coilsLoop_cons]
    dsimp only
    rw [coilsLoop_bank_lower w rest (addr + 1) _ j (by omega), coilsStep_getD]
    rw [if_neg (by rintro ⟨_, h1, _, _⟩; omega)]

theorem coilsLoop_res (w : Bool) :
    ∀ (as : List Bool) (addr : Nat) (bank : List Bool),
      (coilsLoop w addr bank as).2.length = as.length ∧
      ∀ i, i < as.length →
        (coilsLoop w addr bank as).2.getD i false =
          (coilsLoop w addr bank as).1.getD (addr + i) false
  | [], _, _ => ⟨rfl, by intro i hi; cases hi⟩
  | a :: rest, addr, bank => by
    rw [coilsLoop_cons]
    dsimp only
    have ih := coilsLoop_res w rest (addr + 1) (coilsStep w bank addr a)
    constructor
    · simp [ih.1]
    · intro i hi
      cases i with
      | zero =>
        rw [List.getD_cons_zero]
        have hlow := coilsLoop_bank_lower w rest (addr + 1)
          (coilsStep w bank addr a) addr (by omega)
        simp only [Nat.add_zero]
        rw [hlow]
      | succ n =>
        rw [List.getD_cons_succ]
        have := ih.2 n (by simp only [List.length_cons] at hi; omega)
        rw [this]
        have harith : addr + 1 + n = addr + (n + 1) := by omega
        rw [harith]

theorem getD_map_range (f : Nat → Bool) (q i : Nat) (d : Bool) :
    ((List.range q).map f).getD i d = if i < q then f i else d := by
  rw [List.getD_eq_getElem?_getD, List.getElem?_map]
  by_cases h : i < q
  · rw [List.getElem?_range h, if_pos h]
    rfl
  · rw [if_neg h, List.getElem?_eq_none (by simpa using h)]
    rfl

end Simulator

/-- Full behaviour of `HandleCoils` under the configured unit id, split by
the range check. -/
theorem handleCoils_spec (bank : List Bool) (req : Simulator.CoilsRequest)
    (hlen : bank.length = 100) (hunit : req.unitId = 1) :
    (req.addr + req.quantity ≤ 100 →
      (Simulator.handleCoils bank req).2.2 = none ∧
      (req.isWrite = true →
        ∀ j, (Simulator.handleCoils bank req).1.getD j false =
          if req.addr ≤ j ∧ j < req.addr + req.quantity ∧ j ≠ 80
          then req.args.getD (j - req.addr) false
          else bank.getD j false) ∧
      (req.isWrite = false → (Simulator.handleCoils bank req).1 = bank) ∧
      (Simulator.handleCoils bank req).2.1.length = req.quantity ∧
      (∀ i, i < req.quantity →
        (Simulator.handleCoils bank req).2.1.getD i false =
          (Simulator.handleCoils bank req).1.getD (req.addr + i) false)) ∧
    (100 < req.addr + req.quantity →
      Simulator.handleCoils bank req = (bank, [], some .illegalDataAddress)) := by
  have hb : (req.unitId != 1) = false := by simp [hunit]
  constructor
  · intro hrange
    have hcheck : (bank.length < req.addr + req.quantity) = False := by
      simp only [hlen]
      simp
      omega
    unfold Simulator.handleCoils
    rw [hb]
    simp only [Bool.false_eq_true, if_false]
    rw [if_neg (by omega)]
    dsimp only
    refine ⟨rfl, ?_, ?_, ?_, ?_⟩
    · intro hw j
      rw [hw]
      rw [Simulator.coilsLoop_bank_write _ req.addr bank
        (by simp [hlen]; omega) j]
      by_cases hc : req.addr ≤ j ∧ j < req.addr + req.quantity ∧ j ≠ 80
      · rw [if_pos (by simpa using hc), if_pos hc,
          Simulator.getD_map_range, if_pos (by omega)]
      · rw [if_neg (by simpa using hc), if_neg hc]
    · intro hw
      rw [hw]
      exact Simulator.coilsLoop_bank_read _ req.addr bank
    · rw [(Simulator.coilsLoop_res req.isWrite _ req.addr bank).1]
      simp
    · intro i hi
      exact (Simulator.coilsLoop_res req.isWrite _ req.addr bank).2 i (by simpa using hi)
  · intro hrange
    unfold Simulator.handleCoils
    rw [hb]
    simp only [Bool.false_eq_true, if_false]
    rw [if_pos (by omega)]

/-- C10. For every coils request with the configured unit id whose range
lies within the 100-coil bank: no error is returned; a write assigns the
requested value to every covered address except 80, whose coil keeps its
value (the ignored write produces no error); a read leaves the bank
untouched; the response has one entry per covered address and reports the
post-operation value of each covered coil. A request whose range extends
past address 99 returns `ErrIllegalDataAddress` with the bank unmodified
and an empty response. -/
theorem coils_request_behaviour (bank : List Bool) (req : Simulator.CoilsRequest)
    (hlen : bank.length = 100) (hunit : req.unitId = 1) :
    (req.addr + req.quantity ≤ 100 →
      (Simulator.handleCoils bank req).2.2 = none ∧
      (req.isWrite = true →
        ∀ j, (Simulator.handleCoils bank req).1.getD j false =
          if req.addr ≤ j ∧ j < req.addr + req.quantity ∧ j ≠ 80
          then req.args.getD (j - req.addr) false
          else bank.getD j false) ∧
      (req.isWrite = false → (Simulator.handleCoils bank req).1 = bank) ∧
      (Simulator.handleCoils bank req).2.1.length = req.quantity ∧
      (∀ i, i < req.quantity →
        (Simulator.handleCoils bank req).2.1.getD i false =
          (Simulator.handleCoils bank req).1.getD (req.addr + i) false)) ∧
    (100 < req.addr + req.quantity →
      Simulator.handleCoils bank req = (bank, [], some .illegalDataAddress)) :=
  handleCoils_spec bank req hlen hunit

/-- Witness for C10: writing coils 79..81 over an all-false bank sets 79 and
81, leaves the read-only coil 80 false with no error, and a request past
coil 99 is rejected wholesale. -/
theorem coils_request_behaviour_witness :
    (Simulator.handleCoils Simulator.bankW Simulator.reqW).2.2 = none ∧
    (Simulator.handleCoils Simulator.bankW Simulator.reqW).1.getD 79 false = true ∧
    (Simulator.handleCoils Simulator.bankW Simulator.reqW).1.getD 80 false = false ∧
    (Simulator.handleCoils Simulator.bankW Simulator.reqW).1.getD 81 false = true ∧
    Simulator.handleCoils Simulator.bankW Simulator.reqX =
      (Simulator.bankW, [], some .illegalDataAddress) := by
  have h := coils_request_behaviour Simulator.bankW Simulator.reqW (by decide) (by decide)
  have hin := h.1 (by decide)
  refine ⟨hin.1, ?_, ?_, ?_,
    (coils_request_behaviour Simulator.bankW Simulator.reqX (by decide) (by decide)).2
      (by decide)⟩
  · rw [hin.2.1 rfl 79]
    decide
  · rw [hin.2.1 rfl 80]
    decide
  · rw [hin.2.1 rfl 81]
    decide

namespace Simulator

theorem inputLoop_none_iff (u t : Nat) :
    ∀ (n start : Nat),
      (inputLoop u t start n).2 = none ↔
        ∀ a, start ≤ a → a < start + n → (inputRegValue u t a).isSome = true
  | 0, start => by
    constructor
    · intro _ a h1 h2
      omega
    · intro _
      rfl
  | n + 1, start => by
    rw [inputLoop]
    cases hv : inputRegValue u t start with
    | none =>
      constructor
      · intro h
        cases h
      · intro hall
        have := hall start (le_refl start) (by omega)
        rw [hv] at this
        cases this
    | some v =>
      dsimp only
      rw [inputLoop_none_iff u t n (start + 1)]
      constructor
      · intro hall a h1 h2
        rcases Nat.eq_or_lt_of_le h1 with heq | hlt
        · rw [← heq, hv]
          rfl
        · exact hall a hlt (by omega)
      · intro hall a h1 h2
        exact hall a (by omega) (by omega)

theorem inputRegValue_isSome (u t a : Nat) :
    (inputRegValue u t a).isSome = true ↔
      (a = 100 ∨ a = 101 ∨ a = 200 ∨ a = 201 ∨ a = 202 ∨ a = 203 ∨ a = 300 ∨ a = 301) := by
  unfold inputRegValue
  split_ifs <;> simp_all

end Simulator

/-- C7 counterexample. The simulator does not serve all four register tables
at addresses 0…65535: a discrete-input read of address 0 returns
`ErrIllegalFunction` (the table is unimplemented), and a coils read of
address 100 — which the claim says exists — returns `ErrIllegalDataAddress`
because the coil bank only spans 0..99. -/
theorem simulator_not_full_bank :
    Simulator.handleDiscreteInputs
        ⟨1, 0, 1, false, []⟩ = ([], some .illegalFunction) ∧
    (Simulator.handleCoils Simulator.bankW ⟨1, 100, 1, false, []⟩).2.2 =
      some .illegalDataAddress := by
  decide

/-- C7 amended. The simulator's handlers serve three tables: coils at
addresses 0..99 (a request with the configured unit id reaching further is
rejected with `ErrIllegalDataAddress`, the bank untouched); holding
registers at every address 0…65535 (no holding request ever returns an
error); and input registers only at the addresses 100, 101, 200–203,
300–301 — a non-wrapping input request errors with `ErrIllegalDataAddress`
exactly when its range leaves that set. Discrete-input requests always
return `ErrIllegalFunction`. -/
theorem simulator_served_tables :
    (∀ req : Simulator.CoilsRequest,
      Simulator.handleDiscreteInputs req = ([], some .illegalFunction)) ∧
    (∀ (bank : List Bool) (req : Simulator.CoilsRequest),
      bank.length = 100 → req.unitId = 1 →
      (100 < req.addr + req.quantity →
        Simulator.handleCoils bank req = (bank, [], some .illegalDataAddress)) ∧
      (req.addr + req.quantity ≤ 100 →
        (Simulator.handleCoils bank req).2.2 = none)) ∧
    (∀ (bank : Nat → Nat) (req : Simulator.RegsRequest),
      (Simulator.handleHoldingRegisters bank req).2.2 = none) ∧
    (∀ (u t : Nat) (req : Simulator.RegsRequest),
      req.addr + req.quantity < 65536 →
      ((Simulator.handleInputRegisters u t req).2 = none ↔
        ∀ a, req.addr ≤ a → a < req.addr + req.quantity →
          (Simulator.inputRegValue (u % 2 ^ 32) (t % 2 ^ 32) a).isSome = true)) ∧
    (∀ u t a : Nat,
      (Simulator.inputRegValue u t a).isSome = true ↔
        (a = 100 ∨ a = 101 ∨ a = 200 ∨ a = 201 ∨ a = 202 ∨ a = 203 ∨
          a = 300 ∨ a = 301)) := by
  refine ⟨fun _ => rfl, ?_, fun _ _ => rfl, ?_, Simulator.inputRegValue_isSome⟩
  · intro bank req hlen hunit
    have h := handleCoils_spec bank req hlen hunit
    exact ⟨h.2, fun hr => (h.1 hr).1⟩
  · intro u t req hrange
    unfold Simulator.handleInputRegisters
    have hmod : (req.addr + req.quantity) % 65536 = req.addr + req.quantity :=
      Nat.mod_eq_of_lt hrange
    rw [hmod]
    dsimp only
    by_cases hq : req.addr < req.addr + req.quantity
    · rw [if_pos hq]
      have : req.addr + (req.addr + req.quantity - req.addr) = req.addr + req.quantity := by
        omega
      rw [Simulator.inputLoop_none_iff, this]
    · rw [if_neg hq]
      rw [Simulator.inputLoop_none_iff]
      constructor
      · intro _ a h1 h2
        omega
      · intro _ a h1 h2
        omega

namespace Manager

theorem find?_cons_pos {α : Type} (p : α → Bool) (a : α) (l : List α) (h : p a = true) :
    (a :: l).find? p = some a :=
  List.find?_cons_of_pos l h

theorem find?_cons_neg {α : Type} (p : α → Bool) (a : α) (l : List α) (h : p a = false) :
    (a :: l).find? p = l.find? p :=
  List.find?_cons_of_neg l (by simp [h])

theorem find?_map_replace_eq (key : String × String) (tok : Nat) :
    ∀ l : List ((String × String) × Nat), l.any (fun b => b.1 == key) = true →
      (l.map (fun b => if b.1 == key then (key, tok) else b)).find?
          (fun b => b.1 == key) = some (key, tok)
  | [], h => by cases h
  | b :: rest, h => by
    rw [List.map_cons]
    by_cases hb : (b.1 == key) = true
    · rw [if_pos hb]
      exact find?_cons_pos (fun b => b.1 == key) (key, tok) _ (by simp)
    · rw [if_neg hb,
        find?_cons_neg (fun b => b.1 == key) b _ (Bool.eq_false_iff.mpr hb)]
      apply find?_map_replace_eq key tok rest
      rw [List.any_cons] at h
      simpa [hb] using h

theorem find?_map_replace_ne (key keyq : String × String) (tok : Nat) (hne : keyq ≠ key) :
    ∀ l : List ((String × String) × Nat),
      (l.map (fun b => if b.1 == key then (key, tok) else b)).find?
          (fun b => b.1 == keyq) = l.find? (fun b => b.1 == keyq)
  | [] => rfl
  | b :: rest => by
    rw [List.map_cons]
    by_cases hb : (b.1 == key) = true
    · rw [if_pos hb]
      have hb1 : b.1 = key := by simpa using hb
      rw [find?_cons_neg (fun b => b.1 == keyq) (key, tok) _ (by simp [Ne.symm hne]),
        find?_cons_neg (fun b => b.1 == keyq) b _ (by simp [hb1, Ne.symm hne])]
      exact find?_map_replace_ne key keyq tok hne rest
    · rw [if_neg hb]
      by_cases hq : (b.1 == keyq) = true
      · rw [find?_cons_pos (fun b => b.1 == keyq) b _ hq,
          find?_cons_pos (fun b => b.1 == keyq) b _ hq]
      · rw [find?_cons_neg (fun b => b.1 == keyq) b _ (Bool.eq_false_iff.mpr hq),
          find?_cons_neg (fun b => b.1 == keyq) b _ (Bool.eq_false_iff.mpr hq)]
        exact find?_map_replace_ne key keyq tok hne rest

theorem lookupInst_insert (σ : MgrState) (key keyq : String × String) (tok : Nat) :
    lookupInst (insertInst σ key tok) keyq =
      if keyq = key then some tok else lookupInst σ keyq := by
  obtain ⟨l⟩ := σ
  unfold insertInst lookupInst
  by_cases h : l.any (fun b => b.1 == key) = true
  · rw [if_pos h]
    dsimp only
    by_cases hq : keyq = key
    · subst hq
      rw [find?_map_replace_eq keyq tok l h, if_pos rfl]
      rfl
    · rw [find?_map_replace_ne key keyq tok hq l, if_neg hq]
  · rw [if_neg h]
    dsimp only
    rw [List.find?_append]
    by_cases hq : keyq = key
    · subst hq
      have hnone : l.find? (fun b => b.1 == keyq) = none := by
        apply List.find?_eq_none.mpr
        intro b hb hbq
        exact h (List.any_eq_true.mpr ⟨b, hb, hbq⟩)
      rw [hnone, if_pos rfl]
      simp
    · rw [if_neg hq]
      cases hf : l.find? (fun b => b.1 == keyq) with
      | some b => rfl
      | none =>
        rw [find?_cons_neg (fun b => b.1 == keyq) (key, tok) [] (by simp [Ne.symm hq])]
        rfl

end Manager

namespace Manager

theorem find?_congr {α : Type} (p q : α → Bool) :
    ∀ l : List α, (∀ a ∈ l, p a = q a) → l.find? p = l.find? q
  | [], _ => rfl
  | a :: t, h => by
    by_cases ha : p a = true
    · rw [find?_cons_pos p a t ha, find?_cons_pos q a t (by rw [← h a (by simp)]; exact ha)]
    · rw [find?_cons_neg p a t (Bool.eq_false_iff.mpr ha),
        find?_cons_neg q a t (by rw [← h a (by simp)]; exact Bool.eq_false_iff.mpr ha)]
      exact find?_congr p q t (fun b hb => h b (by simp [hb]))

theorem lookupInst_remove (σ : MgrState) (key keyq : String × String) :
    lookupInst (removeInst σ key) keyq =
      if keyq = key then none else lookupInst σ keyq := by
  obtain ⟨l⟩ := σ
  unfold removeInst lookupInst
  dsimp only
  rw [List.find?_filter]
  by_cases hq : keyq = key
  · subst hq
    rw [if_pos rfl]
    rw [List.find?_eq_none.mpr (fun a _ => by simp)]
    rfl
  · rw [if_neg hq]
    rw [find?_congr _ (fun b => b.1 == keyq) l (fun a _ => by
      by_cases hk : (a.1 == key) = true
      · have ha : a.1 = key := by simpa using hk
        have hne : (a.1 == keyq) = false := by
          simp [ha, Ne.symm hq]
        simp [hk, hne]
      · cases hb : (a.1 == keyq) with
        | true => simp [hk, hb]
        | false => simp [hk, hb])]

theorem step_create_lookup (facs : List String) (σ : MgrState) (k : Nat)
    (t i typ id : String) (newOk initOk : Bool) :
    lookupInst (mgrCreate facs σ t i newOk initOk k).1 (typ, id) =
      if (t, i) = (typ, id) && !(t == "" || i == "") && facs.contains t
          && newOk && initOk then some k
      else lookupInst σ (typ, id) := by
  unfold mgrCreate
  by_cases h1 : (t == "" || i == "") = true
  · rw [if_pos h1, if_neg (by simp [h1])]
  · rw [if_neg h1]
    by_cases h2 : facs.contains t = true
    · have h2m : t ∈ facs := by simpa using h2
      rw [if_neg (by simp [h2m])]
      by_cases h3 : newOk = true
      · rw [if_neg (by simp [h3])]
        by_cases h4 : initOk = true
        · rw [if_neg (by simp [h4])]
          dsimp only
          rw [lookupInst_insert]
          by_cases heq : (t, i) = (typ, id)
          · rw [if_pos heq.symm,
              if_pos (by simp [heq, h2m, h3, h4, Bool.eq_false_iff.mpr h1])]
          · rw [if_neg (fun hc => heq hc.symm), if_neg (by simp [heq])]
        · rw [if_pos (by simp [Bool.eq_false_iff.mpr h4]),
            if_neg (by simp [Bool.eq_false_iff.mpr h4])]
      · rw [if_pos (by simp [Bool.eq_false_iff.mpr h3]),
          if_neg (by simp [Bool.eq_false_iff.mpr h3])]
    · have h2m : t ∉ facs := by simpa using h2
      rw [if_pos (by simp [h2m]), if_neg (by simp [h2m])]

theorem step_destroy_lookup (σ : MgrState) (t i typ id : String) (closeOk : Bool) :
    lookupInst (mgrDestroy σ t i closeOk).1 (typ, id) =
      if (t, i) = (typ, id) && (lookupInst σ (typ, id)).isSome && closeOk then none
      else lookupInst σ (typ, id) := by
  unfold mgrDestroy
  by_cases heq : (t, i) = (typ, id)
  · rw [heq]
    cases hm : lookupInst σ (typ, id) with
    | none =>
      dsimp only
      rw [if_neg (by simp)]
      exact hm
    | some v =>
      dsimp only
      by_cases hc : closeOk = true
      · rw [if_neg (by simp [hc]), lookupInst_remove, if_pos rfl,
          if_pos (by simp [hc])]
      · rw [if_pos (by simp [Bool.eq_false_iff.mpr hc]),
          if_neg (by simp [Bool.eq_false_iff.mpr hc])]
        exact hm
  · cases hm : lookupInst σ (t, i) with
    | none =>
      dsimp only
      rw [if_neg (by simp [heq])]
    | some v =>
      dsimp only
      by_cases hc : closeOk = true
      · rw [if_neg (by simp [hc]), lookupInst_remove,
          if_neg (fun hx => heq (by rw [hx])), if_neg (by simp [heq])]
      · rw [if_pos (by simp [Bool.eq_false_iff.mpr hc]),
          if_neg (by simp [heq])]

theorem mgrRun_cons (facs : List String) (σ : MgrState) (k : Nat) (op : Op)
    (rest : List Op) :
    mgrRun facs σ k (op :: rest) =
      ((mgrRun facs (mgrStep facs σ k op).1 (k + 1) rest).1,
        (op, (mgrStep facs σ k op).2) ::
          (mgrRun facs (mgrStep facs σ k op).1 (k + 1) rest).2) := rfl

theorem mgrRun_lookup (facs : List String) (typ id : String) :
    ∀ (ops : List Op) (σ : MgrState) (k : Nat),
      lookupInst (mgrRun facs σ k ops).1 (typ, id) =
        keyWalk facs typ id (lookupInst σ (typ, id)) k ops
  | [], _, _ => rfl
  | op :: rest, σ, k => by
    rw [mgrRun_cons]
    dsimp only
    rw [mgrRun_lookup facs typ id rest (mgrStep facs σ k op).1 (k + 1)]
    cases op with
    | create t i newOk initOk =>
      rw [keyWalk]
      apply congrArg (fun c => keyWalk facs typ id c (k + 1) rest)
      exact step_create_lookup facs σ k t i typ id newOk initOk
    | destroy t i closeOk =>
      rw [keyWalk]
      apply congrArg (fun c => keyWalk facs typ id c (k + 1) rest)
      exact step_destroy_lookup σ t i typ id closeOk

end Manager

/-- C9 amended. The live-instance map is not a multiset difference but
follows last-operation semantics: after any sequence of operations from an
empty manager, `(t, id)` is bound exactly when some guarded create of
`(t, id)` (non-empty type and id, registered factory, successful `New` and
`Init`) has no later successful destroy of the same key, and it is bound to
the instance constructed by the latest such create; a create whose `Init`
fails changes nothing and returns the error. -/
theorem manager_live_map_follows_ops (facs : List String) (typ id : String)
    (ops : List Manager.Op) :
    (Manager.lookupInst (Manager.mgrRun facs ⟨[]⟩ 0 ops).1 (typ, id) =
      Manager.keyWalk facs typ id none 0 ops) ∧
    (∀ (σ : Manager.MgrState) (k : Nat) (t i : String) (newOk : Bool),
      Manager.mgrStep facs σ k (.create t i newOk false) = (σ, false)) := by
  constructor
  · exact Manager.mgrRun_lookup facs typ id ops ⟨[]⟩ 0
  · intro σ k t i newOk
    show Manager.mgrCreate facs σ t i newOk false k = (σ, false)
    unfold Manager.mgrCreate
    split_ifs <;> simp_all

/-- Witness for C7 amended at concrete requests: a discrete-input read is
refused as unimplemented, a coils request past address 99 is rejected, a
holding-register write at the top of the address space succeeds, and an
input-register read of the float registers 300..301 succeeds. -/
theorem simulator_served_tables_witness :
    Simulator.handleDiscreteInputs ⟨1, 5, 2, false, []⟩ = ([], some .illegalFunction) ∧
    Simulator.handleCoils Simulator.bankW Simulator.reqX =
      (Simulator.bankW, [], some .illegalDataAddress) ∧
    (Simulator.handleHoldingRegisters (fun _ => 0) ⟨1, 65534, 2, true, [7, 8]⟩).2.2 =
      none ∧
    (Simulator.handleInputRegisters 0 0 ⟨1, 300, 2, false, []⟩).2 = none := by
  refine ⟨simulator_served_tables.1 ⟨1, 5, 2, false, []⟩,
    (simulator_served_tables.2.1 Simulator.bankW Simulator.reqX (by decide) (by decide)).1
      (by decide),
    simulator_served_tables.2.2.1 (fun _ => 0) ⟨1, 65534, 2, true, [7, 8]⟩,
    (simulator_served_tables.2.2.2.1 0 0 ⟨1, 300, 2, false, []⟩ (by decide)).mpr ?_⟩
  intro a h1 h2
  interval_cases a <;> decide

/-- C1 (code bug). The claim says importing a valid spec stores the canonical
checksum on the type row and that a re-import of the unchanged spec succeeds
idempotently. In the source, the device_types upsert's DO UPDATE column list
names `name_en`, but the `DeviceType.Name` field maps to column `name`, so
SQLite rejects the whole statement when it is prepared: every import of the
valid spec `specA` — in either missing-point mode, over empty storage, and
again over the state left by a first attempt — returns the prepare-time
error and stores nothing, so no type row and hence no checksum is ever
written and no second import can find anything to be idempotent over. -/
theorem import_reimport_never_succeeds :
    Importer.importDeviceType Importer.noFail "g1" 0 ⟨[], []⟩ Importer.specA ⟨true⟩
      = (⟨[], []⟩, some "no such column: name_en") ∧
    Importer.importDeviceType Importer.noFail "g2" 1
      (Importer.importDeviceType Importer.noFail "g1" 0 ⟨[], []⟩ Importer.specA ⟨true⟩).1
      Importer.specA ⟨true⟩
      = (⟨[], []⟩, some "no such column: name_en") ∧
    Importer.importDeviceType Importer.noFail "g1" 0 ⟨[], []⟩ Importer.specA ⟨false⟩
      = (⟨[], []⟩, some "no such column: name_en") ∧
    Importer.validateSpec Importer.specA = none := by
  set_option maxRecDepth 10000 in decide

/-- C3 (code bug). The claim describes the point-level post-state of a
successful import: matched rows updated in place, soft-deleted matches
revived, missing points disabled or soft-deleted. No import can ever
succeed: the device_types upsert fails at prepare time on the nonexistent
column `name_en`, the transaction rolls back, and the storage comes back
exactly as it was — for every oracle, generator string, timestamp, storage,
spec and missing-point mode. In particular, over a storage holding a
soft-deleted row for point "A" and a live row for the extra point "C" of
`specA`, both modes leave both rows untouched: "A" is never revived and
"C" is never disabled or soft-deleted. -/
theorem import_point_poststate_unreachable :
    (∀ (failAt : Nat → Bool) (gen : String) (now : Nat) (σ : Importer.Storage)
       (spec : Importer.TypeSpec) (opt : Importer.ImportOptions),
      (Importer.importDeviceType failAt gen now σ spec opt).1 = σ) ∧
    Importer.importDeviceType Importer.noFail "g" 7
      ⟨[], [Importer.rowAdel, Importer.rowC]⟩ Importer.specA ⟨true⟩
      = (⟨[], [Importer.rowAdel, Importer.rowC]⟩, some "no such column: name_en") ∧
    Importer.importDeviceType Importer.noFail "g" 7
      ⟨[], [Importer.rowAdel, Importer.rowC]⟩ Importer.specA ⟨false⟩
      = (⟨[], [Importer.rowAdel, Importer.rowC]⟩, some "no such column: name_en") := by
  refine ⟨?_, ?_, ?_⟩
  · intro failAt gen now σ spec opt
    unfold Importer.importDeviceType
    cases Importer.validateSpec spec <;> rfl
  · set_option maxRecDepth 10000 in decide
  · set_option maxRecDepth 10000 in decide
